import Mathlib

/-!
Verification of the peep profiling instrumenter (peep.go) against its
specification. We shallowly embed the Go functions that the claims are
about: the Go AST fragment the instrumenter builds, entry-point analysis
(hasMainFunction), import insertion (addImportIfMissing), hygienic name
generation (generateUniqueVars), entry-file discovery (findMainFile),
the dashboard metrics handler (the /metrics closure in startDashboardServer),
and the two executors (writeAndExecute, writeAndExecutePackage) as
effect-trace functions over an environment that decides the outcome of
each fallible operation.
-/

namespace Peep

/-! ## Go AST model

Mirrors the subset of go/ast that peep.go constructs and inspects.
FuncDecl nodes occur only at the top level of a Go file (nested
functions are FuncLit expressions), so a File is a list of declarations
plus its import list (ast.File.Imports, holding the Path.Value of each
imported path, i.e. the quoted string literal).
-/

/-- Literal kinds used by the instrumenter (token.STRING, token.INT). -/
inductive LitKind where
  | str
  | int
deriving DecidableEq

/-- Binary operators used by the instrumenter (token.NEQ, token.MUL, token.GTR). -/
inductive BinOp where
  | neq
  | mul
  | gtr
deriving DecidableEq

/-- Unary operators used by the instrumenter (token.AND, address-of). -/
inductive UnOp where
  | addrOf
deriving DecidableEq

/-- Assignment tokens used by the instrumenter (token.DEFINE, token.ASSIGN). -/
inductive AssignTok where
  | define
  | assign
deriving DecidableEq

mutual

/-- Go expressions, covering the constructors peep.go builds. -/
inductive Expr where
  | ident (name : String)
  | selector (x : Expr) (sel : String)
  | call (fn : Expr) (args : List Expr)
  | basicLit (kind : LitKind) (value : String)
  | binary (x : Expr) (op : BinOp) (y : Expr)
  | unary (op : UnOp) (x : Expr)
  | funcLit (body : List Stmt)
  | compositeLit (ty : Expr) (elts : List Expr)
  | keyValue (key : Expr) (value : Expr)
  | indexExpr (x : Expr) (index : Expr)
  | mapType (key : Expr) (value : Expr)
  | interfaceType

/-- Go statements, covering the constructors peep.go builds.
declStmt models ast.DeclStmt wrapping a GenDecl with one ValueSpec. -/
inductive Stmt where
  | assign (lhs : List Expr) (tok : AssignTok) (rhs : List Expr)
  | exprStmt (x : Expr)
  | ifStmt (cond : Expr) (body : List Stmt)
  | deferStmt (call : Expr)
  | goStmt (call : Expr)
  | rangeStmt (key : Option Expr) (tok : AssignTok) (x : Expr) (body : List Stmt)
  | declStmt (names : List String) (ty : Expr)

end

/-- Function declaration: name, whether it has a receiver (fn.Recv ≠ nil),
and the statement list of its body (fn.Body.List). -/
structure FuncDecl where
  name : String
  hasRecv : Bool
  body : List Stmt

/-- Top-level declaration of a Go file: a function declaration, or any
other declaration (imports, vars, types), which the instrumenter never
touches and whose contents never hold a FuncDecl. -/
inductive Decl where
  | funcDecl (fd : FuncDecl)
  | otherDecl (tag : String)

/-- Parsed compilation unit (ast.File): top-level declarations and the
list of imported paths (each entry a Path.Value, quotes included). -/
structure File where
  decls : List Decl
  imports : List String

/-- Decide whether a top-level declaration is a free function named main:
the visitor body of hasMainFunction (fn.Name.Name == "main" && fn.Recv == nil). -/
def isFreeMainDecl : Decl → Bool
  | .funcDecl fd => fd.name == "main" && !fd.hasRecv
  | .otherDecl _ => false

/-- hasMainFunction (peep.go:45): ast.Inspect sets found when it meets a
FuncDecl named main with no receiver. FuncDecls occur only at top level,
so the traversal reduces to scanning the declaration list. -/
def hasMainFunction (node : File) : Bool :=
  node.decls.any isFreeMainDecl

/-! ## Import resolver -/

/-- The quoted form the scan compares against: fmt.Sprintf("\x22%s\x22", pkg). -/
def goQuote (pkg : String) : String := "\"" ++ pkg ++ "\""

/-- Modelled from the spec: astutil.AddImport (external collaborator from
golang.org/x/tools, not part of this repository) inserts an import
declaration for the given path and records it in the import list;
the Import Resolver contract says "if absent, inserts one". -/
def astutilAddImport (imports : List String) (pkg : String) : List String :=
  imports ++ [goQuote pkg]

/-- addImportIfMissing (peep.go:59): scan node.Imports for an exact match
of the quoted path; if found, return without change, else call
astutil.AddImport. -/
def addImportIfMissing (imports : List String) (pkg : String) : List String :=
  if imports.any (fun imp => imp == goQuote pkg) then imports
  else astutilAddImport imports pkg

/-! ## Identifier generator

generateUniqueVars (peep.go:37) fills a 4-byte array from crypto/rand
(an external entropy source; the bytes are inputs to the model), hex
encodes it with encoding/hex (lowercase), and returns the two prefixed
names. -/

/-- Lowercase hexadecimal digit set, the hextable string of encoding/hex. -/
def hexDigits : List Char := "0123456789abcdef".data

/-- Digit character for a value below 16. -/
def hexDigit (n : Nat) : Char := hexDigits.getD n '0'

/-- Encoding of one byte as two lowercase hex characters (high nibble first),
as encoding/hex does. -/
def hexEncodeByte (b : Nat) : List Char := [hexDigit (b / 16), hexDigit (b % 16)]

/-- hex.EncodeToString over the 4-byte array randBytes. -/
def hexEncode4 (b0 b1 b2 b3 : Nat) : String :=
  String.mk (hexEncodeByte b0 ++ hexEncodeByte b1 ++ hexEncodeByte b2 ++ hexEncodeByte b3)

/-- generateUniqueVars (peep.go:37), with the 4 random bytes drawn by
crypto/rand passed as inputs. -/
def generateUniqueVars (b0 b1 b2 b3 : Nat) : String × String :=
  let suffix := hexEncode4 b0 b1 b2 b3
  ("f_" ++ suffix, "err_" ++ suffix)

/-! ## Instrumentation statement builders -/

/-- Helper mirroring ast.NewIdent. -/
def newIdent (s : String) : Expr := Expr.ident s

/-- createCPUProfilingStmts (peep.go:69): the four statements
  cpuFileVar, cpuErrVar := os.Create(cpuFile)
  if cpuErrVar != nil then log.Fatal(cpuErrVar)
  pprof.StartCPUProfile(cpuFileVar)
  defer pprof.StopCPUProfile() -/
def createCPUProfilingStmts (cpuFile cpuFileVar cpuErrVar : String) : List Stmt :=
  [ Stmt.assign [newIdent cpuFileVar, newIdent cpuErrVar] AssignTok.define
      [Expr.call (Expr.selector (newIdent "os") "Create")
        [Expr.basicLit LitKind.str (goQuote cpuFile)]],
    Stmt.ifStmt (Expr.binary (newIdent cpuErrVar) BinOp.neq (newIdent "nil"))
      [Stmt.exprStmt (Expr.call (Expr.selector (newIdent "log") "Fatal")
        [newIdent cpuErrVar])],
    Stmt.exprStmt (Expr.call (Expr.selector (newIdent "pprof") "StartCPUProfile")
      [newIdent cpuFileVar]),
    Stmt.deferStmt (Expr.call (Expr.selector (newIdent "pprof") "StopCPUProfile") []) ]

/-- createMemoryProfilingStmts (peep.go:137): the three statements
  memFileVar, memErrVar := os.Create(memFile)
  if memErrVar != nil then log.Fatal(memErrVar)
  defer func() with body pprof.WriteHeapProfile(memFileVar); memFileVar.Close() -/
def createMemoryProfilingStmts (memFile memFileVar memErrVar : String) : List Stmt :=
  [ Stmt.assign [newIdent memFileVar, newIdent memErrVar] AssignTok.define
      [Expr.call (Expr.selector (newIdent "os") "Create")
        [Expr.basicLit LitKind.str (goQuote memFile)]],
    Stmt.ifStmt (Expr.binary (newIdent memErrVar) BinOp.neq (newIdent "nil"))
      [Stmt.exprStmt (Expr.call (Expr.selector (newIdent "log") "Fatal")
        [newIdent memErrVar])],
    Stmt.deferStmt (Expr.call (Expr.funcLit
      [ Stmt.exprStmt (Expr.call (Expr.selector (newIdent "pprof") "WriteHeapProfile")
          [newIdent memFileVar]),
        Stmt.exprStmt (Expr.call (Expr.selector (newIdent memFileVar) "Close") []) ]) []) ]

/-- Body of the metrics sampling loop: the statements inside
for range ticker.C in createMetricsCollectionStmts (peep.go:289-459). -/
def metricsLoopBody : List Stmt :=
  [ Stmt.declStmt ["m"] (Expr.selector (newIdent "runtime") "MemStats"),
    Stmt.exprStmt (Expr.call (Expr.selector (newIdent "runtime") "ReadMemStats")
      [Expr.unary UnOp.addrOf (newIdent "m")]),
    Stmt.assign [newIdent "cpuPct", newIdent "_"] AssignTok.define
      [Expr.call (Expr.selector (newIdent "cpu") "Percent")
        [Expr.basicLit LitKind.int "0", newIdent "false"]],
    Stmt.declStmt ["cpuVal"] (newIdent "float64"),
    Stmt.ifStmt (Expr.binary (Expr.call (newIdent "len") [newIdent "cpuPct"])
        BinOp.gtr (Expr.basicLit LitKind.int "0"))
      [Stmt.assign [newIdent "cpuVal"] AssignTok.assign
        [Expr.indexExpr (newIdent "cpuPct") (Expr.basicLit LitKind.int "0")]],
    Stmt.assign [newIdent "metrics"] AssignTok.define
      [Expr.compositeLit (Expr.mapType (newIdent "string") Expr.interfaceType)
        [ Expr.keyValue (Expr.basicLit LitKind.str "\"alloc\"")
            (Expr.selector (newIdent "m") "Alloc"),
          Expr.keyValue (Expr.basicLit LitKind.str "\"totalAlloc\"")
            (Expr.selector (newIdent "m") "TotalAlloc"),
          Expr.keyValue (Expr.basicLit LitKind.str "\"sys\"")
            (Expr.selector (newIdent "m") "Sys"),
          Expr.keyValue (Expr.basicLit LitKind.str "\"numGC\"")
            (Expr.selector (newIdent "m") "NumGC"),
          Expr.keyValue (Expr.basicLit LitKind.str "\"pauseTotal\"")
            (Expr.selector (newIdent "m") "PauseTotalNs"),
          Expr.keyValue (Expr.basicLit LitKind.str "\"cpuPercent\"")
            (newIdent "cpuVal"),
          Expr.keyValue (Expr.basicLit LitKind.str "\"timestampMs\"")
            (Expr.call (Expr.selector
              (Expr.call (Expr.selector (newIdent "time") "Now") []) "UnixMilli") []) ]],
    Stmt.assign [newIdent "data", newIdent "_"] AssignTok.define
      [Expr.call (Expr.selector (newIdent "json") "Marshal") [newIdent "metrics"]],
    Stmt.exprStmt (Expr.call (Expr.selector (newIdent "os") "WriteFile")
      [newIdent "metricsFile", newIdent "data", Expr.basicLit LitKind.int "0644"]) ]

/-- createMetricsCollectionStmts (peep.go:215): the three statements
  metricsFile := "peep_metrics.json"
  defer os.Remove(metricsFile)
  go func() with the 500 ms ticker loop writing snapshots. -/
def createMetricsCollectionStmts : List Stmt :=
  [ Stmt.assign [newIdent "metricsFile"] AssignTok.define
      [Expr.basicLit LitKind.str "\"peep_metrics.json\""],
    Stmt.deferStmt (Expr.call (Expr.selector (newIdent "os") "Remove")
      [newIdent "metricsFile"]),
    Stmt.goStmt (Expr.call (Expr.funcLit
      [ Stmt.assign [newIdent "ticker"] AssignTok.define
          [Expr.call (Expr.selector (newIdent "time") "NewTicker")
            [Expr.binary (Expr.basicLit LitKind.int "500") BinOp.mul
              (Expr.selector (newIdent "time") "Millisecond")]],
        Stmt.deferStmt (Expr.call (Expr.selector (newIdent "ticker") "Stop") []),
        Stmt.rangeStmt (some (newIdent "_")) AssignTok.assign
          (Expr.selector (newIdent "ticker") "C") metricsLoopBody ]) []) ]

/-! ## Injector -/

/-- Statement block assembled inside the visitor of instrumentMainFunction
(peep.go:474-489): CPU statements when enableCPU, then memory statements
when enableMem, then dashboard statements when enableWeb. -/
def injectionBlock (cpuFile memFile cpuFileVar cpuErrVar memFileVar memErrVar : String)
    (enableCPU enableMem enableWeb : Bool) : List Stmt :=
  (if enableCPU then createCPUProfilingStmts cpuFile cpuFileVar cpuErrVar else [])
    ++ (if enableMem then createMemoryProfilingStmts memFile memFileVar memErrVar else [])
    ++ (if enableWeb then createMetricsCollectionStmts else [])

/-- Action of the instrumentMainFunction visitor on one top-level
declaration: a free function named main gets the block prepended to its
body (fn.Body.List = append(stmts, fn.Body.List...)); everything else is
untouched. -/
def instrumentDecl (stmts : List Stmt) : Decl → Decl
  | .funcDecl fd =>
      if fd.name == "main" && !fd.hasRecv then
        .funcDecl { fd with body := stmts ++ fd.body }
      else .funcDecl fd
  | .otherDecl t => .otherDecl t

/-- instrumentMainFunction (peep.go:470): ast.Inspect visits every
top-level declaration (returning false only prunes the matched
children of the matched declaration, so later ones are still visited), hence
the traversal acts as instrumentDecl mapped over the declaration list.
The imports are untouched. -/
def instrumentMainFunction (node : File)
    (cpuFile memFile cpuFileVar cpuErrVar memFileVar memErrVar : String)
    (enableCPU enableMem enableWeb : Bool) : File :=
  { node with decls := node.decls.map (instrumentDecl
      (injectionBlock cpuFile memFile cpuFileVar cpuErrVar memFileVar memErrVar
        enableCPU enableMem enableWeb)) }

/-! ## Dashboard metrics endpoint

The /metrics handler (peep.go:533-566) reads peep_metrics.json, tries
json.Unmarshal into map[string]any, and applies the staleness check.
The filesystem read and the JSON decoder (encoding/json, an external
collaborator) are modelled as inputs: the handler receives the read
outcome and, when the read succeeded, the raw bytes together with their
decode outcome. Go decodes JSON numbers into float64; every finite
float64 is a rational, so JSON numbers are modelled as Rat.
-/

/-- JSON values as decoded by encoding/json into the Go any type. -/
inductive JVal where
  | null
  | jbool (b : Bool)
  | num (q : Rat)
  | jstr (s : String)
  | arr (xs : List JVal)
  | obj (fields : List (String × JVal))

/-- Go map lookup metrics["timestampMs"] over the decoded object, whose
keys are unique (Go maps). -/
def lookupField : List (String × JVal) → String → Option JVal
  | [], _ => none
  | (k, v) :: rest, key => if k == key then some v else lookupField rest key

/-- Contents of peep_metrics.json as the handler sees them: the raw
bytes, and the result of json.Unmarshal into map[string]any (none when
the bytes are not a valid JSON object). -/
structure MetricsFile where
  raw : String
  parsed : Option (List (String × JVal))

/-- Go conversion int64(ts) for a float64 ts: truncation toward zero. -/
def truncToInt (q : Rat) : Int :=
  if 0 ≤ q then ((q.num.toNat / q.den : Nat) : Int)
  else -(((-q.num).toNat / q.den : Nat) : Int)

/-- HTTP response written by the handler. Every branch uses w.Write
without WriteHeader, so the status is always 200. -/
structure Response where
  status : Nat
  body : String
deriving DecidableEq

/-- The /metrics handler closure (peep.go:533-566). now is
time.Now().UnixMilli(); file is none when os.ReadFile failed (file
absent). -/
def metricsHandler (now : Int) (file : Option MetricsFile) : Response :=
  match file with
  | none => ⟨200, "{}"⟩
  | some f =>
    match f.parsed with
    | none => ⟨200, "{}"⟩
    | some metrics =>
      match lookupField metrics "timestampMs" with
      | some (JVal.num ts) =>
          if now - truncToInt ts > 2000 then ⟨200, "{}"⟩ else ⟨200, f.raw⟩
      | _ => ⟨200, f.raw⟩

/-! ## Entry-file discovery

findMainFile (peep.go:704) parses each candidate path with go/parser
(an external collaborator); the per-path parse outcome is an input:
none models a parse error (the continue branch of the loop), some a parsed File.
-/

/-- Error outcomes of findMainFile. -/
inductive FindMainError where
  | noMain
  | multiple (files : List String)
deriving DecidableEq

/-- Accumulation loop of findMainFile: skip paths whose parse failed,
collect paths whose tree has a main function, in order. -/
def collectMainFiles : List (String × Option File) → List String
  | [] => []
  | (_, none) :: rest => collectMainFiles rest
  | (path, some node) :: rest =>
      if hasMainFunction node then path :: collectMainFiles rest
      else collectMainFiles rest

/-- findMainFile (peep.go:704): after the loop, zero collected files is
the absence error, more than one is the ambiguity error carrying the
whole list, else the unique element mainFiles[0] is returned. -/
def findMainFile (files : List (String × Option File)) : Except FindMainError String :=
  let mainFiles := collectMainFiles files
  if mainFiles.length = 0 then .error .noMain
  else if mainFiles.length > 1 then .error (.multiple mainFiles)
  else .ok (mainFiles.headD "")

/-! ## Executors as effect traces

writeAndExecute (peep.go:589) and writeAndExecutePackage (peep.go:731)
interleave filesystem operations and a subprocess run, any of which may
fail. The outcome of each fallible operation is decided by an environment;
the embedding returns the sequence of completed filesystem effects (in
order, deferred calls last) together with the Except-style
result. Prints, the dashboard goroutine and stream wiring have no
filesystem effect and are omitted.
-/

/-- Completed filesystem effects. -/
inductive FsOp where
  | create (path : String)
  | remove (path : String)
  | removeAll (path : String)
  | mkdir (path : String)
  | writeFile (path : String)
deriving DecidableEq

/-- Environment for writeAndExecute: os.TempDir() and the outcomes of
os.Create, printer.Fprint and cmd.Run (false = non-zero exit / spawn
failure). -/
structure ExecEnv where
  tmpDir : String
  createTempOk : Bool
  fprintOk : Bool
  runOk : Bool

/-- Model of filepath.Join for the two-component uses in peep.go. -/
def pathJoin (dir file : String) : String := dir ++ "/" ++ file

/-- writeAndExecute (peep.go:589). The temp file path is
filepath.Join(os.TempDir(), "main_prof.go"). os.Remove(tempFile) is a
plain call at the end of the success path (peep.go:660), not deferred:
the early returns on Fprint failure (peep.go:604) and cmd.Run failure
(peep.go:639) reach no removal. The web flag only starts the dashboard
and waits; it adds no filesystem effect. -/
def writeAndExecute (env : ExecEnv) (nodeIsNil : Bool) (web : Bool) :
    List FsOp × Except String Unit :=
  if nodeIsNil then ([], .error "cannot write nil AST")
  else
    let tempFile := pathJoin env.tmpDir "main_prof.go"
    if !env.createTempOk then ([], .error "failed to create temp file")
    else if !env.fprintOk then ([.create tempFile], .error "failed to write modified code")
    else if !env.runOk then ([.create tempFile], .error "execution failed")
    else ([.create tempFile, .remove tempFile], .ok ())

/-- Sequencing for trace-producing steps: run b only when a succeeded,
concatenating the completed effects. -/
def seqE (a : List FsOp × Except String Unit)
    (b : Unit → List FsOp × Except String Unit) : List FsOp × Except String Unit :=
  match a with
  | (ops, .error e) => (ops, .error e)
  | (ops, .ok ()) => let r := b (); (ops ++ r.1, r.2)

/-- Model of filepath.Base: the last slash-separated component. -/
def baseName (path : String) : String :=
  (path.splitOn "/").getLastD path

/-- Model of filepath.Dir: the path with its last component removed. -/
def dirName (path : String) : String :=
  let parts := path.splitOn "/"
  if parts.length ≤ 1 then "." else String.intercalate "/" parts.dropLast

/-- Environment for writeAndExecutePackage: the temp directory name
os.MkdirTemp chooses and the outcomes of every fallible operation.
readOk/writeOk are per-path outcomes of os.ReadFile/os.WriteFile. -/
structure PkgEnv where
  tempDir : String
  mkdirOk : Bool
  createMainOk : Bool
  fprintOk : Bool
  readOk : String → Bool
  writeOk : String → Bool
  goModExists : Bool
  goSumExists : Bool
  readDirOk : Bool
  tidyOk : Bool
  runOk : Bool

/-- Copy loop of writeAndExecutePackage (peep.go:754-772): each sibling
file other than the instrumented main file is read and written into the
temp directory; the first failure aborts with an error. -/
def copyPkgFiles (env : PkgEnv) (originalMainFile : String) :
    List String → List FsOp × Except String Unit
  | [] => ([], .ok ())
  | file :: rest =>
    if file == originalMainFile then copyPkgFiles env originalMainFile rest
    else if !env.readOk file then
      ([], .error ("failed to read file " ++ file))
    else
      let tempFile := pathJoin env.tempDir (baseName file)
      if !env.writeOk tempFile then
        ([], .error ("failed to write temp file " ++ tempFile))
      else
        seqE ([.writeFile tempFile], .ok ()) (fun _ => copyPkgFiles env originalMainFile rest)

/-- Manifest copy steps (peep.go:774-797): go.mod and go.sum are copied
from the package directory when os.Stat finds them. -/
def copyManifest (env : PkgEnv) (srcFile dstFile : String) (exists_ : Bool)
    (label : String) : List FsOp × Except String Unit :=
  if exists_ then
    if !env.readOk srcFile then ([], .error ("failed to read " ++ label))
    else if !env.writeOk dstFile then ([], .error ("failed to write " ++ label))
    else ([.writeFile dstFile], .ok ())
  else ([], .ok ())

/-- Body of writeAndExecutePackage after os.MkdirTemp succeeded and
defer os.RemoveAll(tempDir) was registered (peep.go:739-876): write the
instrumented main file, copy the siblings, copy manifests, read the
temp directory, run go mod tidy when a go.mod is present (the os.Stat
on tempDir/go.mod succeeds exactly when the manifest was copied, which
on this path means goModExists), then run the subprocess. -/
def writeAndExecutePackageBody (env : PkgEnv) (originalMainFile : String)
    (allPkgFiles : List String) : List FsOp × Except String Unit :=
  let tempMainFile := pathJoin env.tempDir (baseName originalMainFile)
  let pkgDir := dirName originalMainFile
  if !env.createMainOk then ([], .error "failed to create temp main file")
  else if !env.fprintOk then
    ([.create tempMainFile], .error "failed to write instrumented main file")
  else
    seqE ([.create tempMainFile], .ok ()) (fun _ =>
    seqE (copyPkgFiles env originalMainFile allPkgFiles) (fun _ =>
    seqE (copyManifest env (pathJoin pkgDir "go.mod") (pathJoin env.tempDir "go.mod")
          env.goModExists "go.mod") (fun _ =>
    seqE (copyManifest env (pathJoin pkgDir "go.sum") (pathJoin env.tempDir "go.sum")
          env.goSumExists "go.sum") (fun _ =>
    if !env.readDirOk then ([], .error "failed to read temp directory")
    else if env.goModExists && !env.tidyOk then
      ([], .error "failed to tidy dependencies")
    else if !env.runOk then ([], .error "execution failed")
    else ([], .ok ())))))

/-- writeAndExecutePackage (peep.go:731): os.MkdirTemp, then
defer os.RemoveAll(tempDir) (peep.go:737), then the body; the deferred
recursive removal runs on every return that follows the defer, so it is
the final effect of every trace whose mkdir succeeded. -/
def writeAndExecutePackage (env : PkgEnv) (originalMainFile : String)
    (allPkgFiles : List String) : List FsOp × Except String Unit :=
  if !env.mkdirOk then ([], .error "failed to create temp directory")
  else
    let r := writeAndExecutePackageBody env originalMainFile allPkgFiles
    (FsOp.mkdir env.tempDir :: r.1 ++ [FsOp.removeAll env.tempDir], r.2)

/-! ## Helper lemmas -/

theorem strData_append (a b : String) : (a ++ b).data = a.data ++ b.data := rfl

theorem hexDigit_mem_hexDigits : ∀ n < 16, hexDigit n ∈ hexDigits := by decide

theorem hexDigit_inj : ∀ m < 16, ∀ n < 16, hexDigit m = hexDigit n → m = n := by decide

theorem hexEncodeByte_inj (b c : Nat) (hb : b < 256) (hc : c < 256)
    (h : hexEncodeByte b = hexEncodeByte c) : b = c := by
  unfold hexEncodeByte at h
  injection h with h1 h2
  injection h2 with h2 _
  have e1 := hexDigit_inj _ (Nat.div_lt_of_lt_mul (by omega)) _
    (Nat.div_lt_of_lt_mul (by omega)) h1
  have e2 := hexDigit_inj _ (Nat.mod_lt _ (by omega)) _ (Nat.mod_lt _ (by omega)) h2
  omega

theorem hexEncode4_inj (b0 b1 b2 b3 c0 c1 c2 c3 : Nat)
    (hb0 : b0 < 256) (hb1 : b1 < 256) (hb2 : b2 < 256) (hb3 : b3 < 256)
    (hc0 : c0 < 256) (hc1 : c1 < 256) (hc2 : c2 < 256) (hc3 : c3 < 256)
    (h : hexEncode4 b0 b1 b2 b3 = hexEncode4 c0 c1 c2 c3) :
    b0 = c0 ∧ b1 = c1 ∧ b2 = c2 ∧ b3 = c3 := by
  unfold hexEncode4 at h
  injection h with h
  simp only [hexEncodeByte, List.cons_append, List.nil_append, List.cons.injEq,
    and_true] at h
  obtain ⟨e0, e1, e2, e3, e4, e5, e6, e7⟩ := h
  exact ⟨hexEncodeByte_inj _ _ hb0 hc0 (by simp [hexEncodeByte, e0, e1]),
    hexEncodeByte_inj _ _ hb1 hc1 (by simp [hexEncodeByte, e2, e3]),
    hexEncodeByte_inj _ _ hb2 hc2 (by simp [hexEncodeByte, e4, e5]),
    hexEncodeByte_inj _ _ hb3 hc3 (by simp [hexEncodeByte, e6, e7])⟩

theorem string_append_left_inj (p s t : String) (h : p ++ s = p ++ t) : s = t := by
  have hd : p.data ++ s.data = p.data ++ t.data := by
    rw [← strData_append, ← strData_append, h]
  have := List.append_cancel_left hd
  cases s
  cases t
  exact congrArg String.mk this

/-! ## Claims -/

/-- C4: hasMainFunction returns true iff the tree contains a function
declaration named "main" with no receiver; in particular it is false
when the tree only holds a method named "main" with a receiver. -/
theorem hasMainFunction_iff (node : File) :
    hasMainFunction node = true ↔
      ∃ fd : FuncDecl, Decl.funcDecl fd ∈ node.decls ∧
        fd.name = "main" ∧ fd.hasRecv = false := by
  unfold hasMainFunction
  rw [List.any_eq_true]
  constructor
  · rintro ⟨d, hd, hpred⟩
    cases d with
    | funcDecl fd =>
      simp only [isFreeMainDecl, Bool.and_eq_true, beq_iff_eq, Bool.not_eq_true'] at hpred
      exact ⟨fd, hd, hpred.1, hpred.2⟩
    | otherDecl t => simp [isFreeMainDecl] at hpred
  · rintro ⟨fd, hmem, hname, hrecv⟩
    exact ⟨Decl.funcDecl fd, hmem, by simp [isFreeMainDecl, hname, hrecv]⟩

/-- C7: addImportIfMissing is idempotent: a path already present leaves
the import list unchanged, and two invocations with the same path give
the same import list as one. -/
theorem addImportIfMissing_idempotent (imports : List String) (pkg : String) :
    (goQuote pkg ∈ imports → addImportIfMissing imports pkg = imports) ∧
    addImportIfMissing (addImportIfMissing imports pkg) pkg =
      addImportIfMissing imports pkg := by
  constructor
  · intro hmem
    unfold addImportIfMissing
    rw [if_pos]
    rw [List.any_eq_true]
    exact ⟨goQuote pkg, hmem, by simp⟩
  · by_cases h : imports.any (fun imp => imp == goQuote pkg) = true
    · simp [addImportIfMissing, h]
    · have hA : addImportIfMissing imports pkg = imports ++ [goQuote pkg] := by
        unfold addImportIfMissing astutilAddImport
        rw [if_neg h]
      rw [hA]
      unfold addImportIfMissing
      rw [if_pos]
      rw [List.any_eq_true]
      exact ⟨goQuote pkg, by simp, by simp⟩

/-- Witness for C7 at concrete inputs: "os" already present is a no-op,
and inserting "os" twice into an empty list equals inserting it once. -/
theorem addImportIfMissing_idempotent_witness :
    addImportIfMissing [goQuote "os"] "os" = [goQuote "os"] ∧
    addImportIfMissing (addImportIfMissing [] "os") "os" =
      addImportIfMissing [] "os" :=
  ⟨(addImportIfMissing_idempotent [goQuote "os"] "os").1 (by simp),
   (addImportIfMissing_idempotent [] "os").2⟩

/-- C8: generateUniqueVars, on any 4 drawn bytes, returns the pair
"f_" resp. "err_" plus the shared 8-character lowercase-hex suffix; the
two names of one pair are never equal (also across pairs), and two
pairs drawn from different bytes have different resource names and
different error names. -/
theorem generateUniqueVars_spec (b0 b1 b2 b3 c0 c1 c2 c3 : Nat)
    (hb0 : b0 < 256) (hb1 : b1 < 256) (hb2 : b2 < 256) (hb3 : b3 < 256)
    (hc0 : c0 < 256) (hc1 : c1 < 256) (hc2 : c2 < 256) (hc3 : c3 < 256) :
    (generateUniqueVars b0 b1 b2 b3).1 = "f_" ++ hexEncode4 b0 b1 b2 b3 ∧
    (generateUniqueVars b0 b1 b2 b3).2 = "err_" ++ hexEncode4 b0 b1 b2 b3 ∧
    (hexEncode4 b0 b1 b2 b3).length = 8 ∧
    (∀ ch ∈ (hexEncode4 b0 b1 b2 b3).data, ch ∈ hexDigits) ∧
    (generateUniqueVars b0 b1 b2 b3).1 ≠ (generateUniqueVars c0 c1 c2 c3).2 ∧
    ((b0, b1, b2, b3) ≠ (c0, c1, c2, c3) →
      (generateUniqueVars b0 b1 b2 b3).1 ≠ (generateUniqueVars c0 c1 c2 c3).1 ∧
      (generateUniqueVars b0 b1 b2 b3).2 ≠ (generateUniqueVars c0 c1 c2 c3).2) := by
  refine ⟨rfl, rfl, rfl, ?_, ?_, ?_⟩
  · intro ch hch
    have hmem : ch ∈ hexEncodeByte b0 ++ hexEncodeByte b1 ++ hexEncodeByte b2
        ++ hexEncodeByte b3 := hch
    simp only [hexEncodeByte, List.append_assoc, List.cons_append, List.nil_append,
      List.mem_cons, List.not_mem_nil, or_false] at hmem
    rcases hmem with h | h | h | h | h | h | h | h <;> subst h <;>
      first
      | exact hexDigit_mem_hexDigits _ (Nat.div_lt_of_lt_mul (by omega))
      | exact hexDigit_mem_hexDigits _ (Nat.mod_lt _ (by omega))
  · intro h
    have hd : ("f_" ++ hexEncode4 b0 b1 b2 b3).data
        = ("err_" ++ hexEncode4 c0 c1 c2 c3).data := congrArg String.data h
    rw [strData_append, strData_append] at hd
    have : 'f' :: '_' :: (hexEncode4 b0 b1 b2 b3).data
        = 'e' :: 'r' :: 'r' :: '_' :: (hexEncode4 c0 c1 c2 c3).data := hd
    simp at this
  · intro hne
    have hsuf : hexEncode4 b0 b1 b2 b3 ≠ hexEncode4 c0 c1 c2 c3 := by
      intro heq
      obtain ⟨e0, e1, e2, e3⟩ :=
        hexEncode4_inj b0 b1 b2 b3 c0 c1 c2 c3 hb0 hb1 hb2 hb3 hc0 hc1 hc2 hc3 heq
      exact hne (by rw [e0, e1, e2, e3])
    constructor
    · intro h
      exact hsuf (string_append_left_inj "f_" _ _ h)
    · intro h
      exact hsuf (string_append_left_inj "err_" _ _ h)

/-- Witness for C8 at the concrete byte vectors (0,1,2,3) and
(255,1,2,3). -/
theorem generateUniqueVars_spec_witness :
    (generateUniqueVars 0 1 2 3).1 ≠ (generateUniqueVars 0 1 2 3).2 ∧
    (generateUniqueVars 0 1 2 3).1 ≠ (generateUniqueVars 255 1 2 3).1 ∧
    (generateUniqueVars 0 1 2 3).2 ≠ (generateUniqueVars 255 1 2 3).2 ∧
    (hexEncode4 0 1 2 3).length = 8 := by
  have h1 := generateUniqueVars_spec 0 1 2 3 0 1 2 3
    (by decide) (by decide) (by decide) (by decide)
    (by decide) (by decide) (by decide) (by decide)
  have h2 := generateUniqueVars_spec 0 1 2 3 255 1 2 3
    (by decide) (by decide) (by decide) (by decide)
    (by decide) (by decide) (by decide) (by decide)
  have hpairs := h2.2.2.2.2.2 (by decide)
  exact ⟨h1.2.2.2.2.1, hpairs.1, hpairs.2, h1.2.2.1⟩

/-- C3: on a tree with an entry point, instrumentMainFunction rewrites
the entry-point declaration so the new body is the injection block (CPU
statements, then memory, then dashboard, each under its flag) followed
by the original statements unchanged and in order; with a flag enabled
the statement count strictly increases, and with all flags disabled the
body is unchanged. -/
theorem instrumentMainFunction_prepends (node : File)
    (cpuFile memFile cpuFileVar cpuErrVar memFileVar memErrVar : String)
    (enableCPU enableMem enableWeb : Bool) (i : Nat) (fd : FuncDecl)
    (hi : node.decls[i]? = some (.funcDecl fd))
    (hname : fd.name = "main") (hrecv : fd.hasRecv = false) :
    ((instrumentMainFunction node cpuFile memFile cpuFileVar cpuErrVar memFileVar
        memErrVar enableCPU enableMem enableWeb).decls[i]?
      = some (.funcDecl ⟨fd.name, fd.hasRecv,
          injectionBlock cpuFile memFile cpuFileVar cpuErrVar memFileVar memErrVar
            enableCPU enableMem enableWeb ++ fd.body⟩)) ∧
    (injectionBlock cpuFile memFile cpuFileVar cpuErrVar memFileVar memErrVar
        enableCPU enableMem enableWeb
      = (if enableCPU then createCPUProfilingStmts cpuFile cpuFileVar cpuErrVar else [])
        ++ (if enableMem then createMemoryProfilingStmts memFile memFileVar memErrVar else [])
        ++ (if enableWeb then createMetricsCollectionStmts else [])) ∧
    ((enableCPU = true ∨ enableMem = true ∨ enableWeb = true) →
      fd.body.length <
        (injectionBlock cpuFile memFile cpuFileVar cpuErrVar memFileVar memErrVar
          enableCPU enableMem enableWeb ++ fd.body).length) ∧
    (enableCPU = false → enableMem = false → enableWeb = false →
      injectionBlock cpuFile memFile cpuFileVar cpuErrVar memFileVar memErrVar
        enableCPU enableMem enableWeb ++ fd.body = fd.body) := by
  refine ⟨?_, rfl, ?_, ?_⟩
  · unfold instrumentMainFunction
    simp only [List.getElem?_map, hi, Option.map_some]
    simp [instrumentDecl, hname, hrecv]
  · intro hflag
    rw [List.length_append]
    have : 0 < (injectionBlock cpuFile memFile cpuFileVar cpuErrVar memFileVar
        memErrVar enableCPU enableMem enableWeb).length := by
      unfold injectionBlock
      rcases hflag with h | h | h <;> rw [h] <;>
        simp [createCPUProfilingStmts, createMemoryProfilingStmts,
          createMetricsCollectionStmts]
    omega
  · intro h1 h2 h3
    simp [injectionBlock, h1, h2, h3]

/-- Witness for C3: a one-statement main function, CPU-only plan; the
instrumented body is the CPU block followed by the original statement,
and the statement count grew. -/
theorem instrumentMainFunction_prepends_witness :
    ((instrumentMainFunction
        ⟨[.funcDecl ⟨"main", false, [Stmt.exprStmt (newIdent "work")]⟩], []⟩
        "cpu.prof" "mem.prof" "f_aa" "err_aa" "f_bb" "err_bb"
        true false false).decls[0]?
      = some (.funcDecl ⟨"main", false,
          injectionBlock "cpu.prof" "mem.prof" "f_aa" "err_aa" "f_bb" "err_bb"
            true false false ++ [Stmt.exprStmt (newIdent "work")]⟩)) ∧
    ([Stmt.exprStmt (newIdent "work")] : List Stmt).length <
      (injectionBlock "cpu.prof" "mem.prof" "f_aa" "err_aa" "f_bb" "err_bb"
        true false false ++ [Stmt.exprStmt (newIdent "work")]).length := by
  have h := instrumentMainFunction_prepends
    ⟨[.funcDecl ⟨"main", false, [Stmt.exprStmt (newIdent "work")]⟩], []⟩
    "cpu.prof" "mem.prof" "f_aa" "err_aa" "f_bb" "err_bb"
    true false false 0 ⟨"main", false, [Stmt.exprStmt (newIdent "work")]⟩
    rfl rfl rfl
  exact ⟨h.1, h.2.2.1 (Or.inl rfl)⟩

/-- C9: on a tree with no entry point, instrumentMainFunction leaves the
whole tree unchanged, whatever the flags. -/
theorem instrumentMainFunction_noop_without_main (node : File)
    (cpuFile memFile cpuFileVar cpuErrVar memFileVar memErrVar : String)
    (enableCPU enableMem enableWeb : Bool)
    (h : hasMainFunction node = false) :
    instrumentMainFunction node cpuFile memFile cpuFileVar cpuErrVar memFileVar
      memErrVar enableCPU enableMem enableWeb = node := by
  unfold instrumentMainFunction
  have hall : ∀ d ∈ node.decls, isFreeMainDecl d = false := by
    intro d hd
    by_contra hne
    have : hasMainFunction node = true := by
      unfold hasMainFunction
      rw [List.any_eq_true]
      exact ⟨d, hd, by revert hne; cases isFreeMainDecl d <;> simp⟩
    rw [h] at this
    exact Bool.false_ne_true this
  have hmap : node.decls.map (instrumentDecl
      (injectionBlock cpuFile memFile cpuFileVar cpuErrVar memFileVar memErrVar
        enableCPU enableMem enableWeb)) = node.decls := by
    have hcongr : ∀ d ∈ node.decls, instrumentDecl
        (injectionBlock cpuFile memFile cpuFileVar cpuErrVar memFileVar memErrVar
          enableCPU enableMem enableWeb) d = id d := by
      intro d hd
      have := hall d hd
      show instrumentDecl _ d = d
      cases d with
      | funcDecl fd =>
        simp only [isFreeMainDecl] at this
        simp [instrumentDecl, this]
      | otherDecl t => rfl
    rw [List.map_congr_left hcongr, List.map_id]
  rw [hmap]

/-- Witness for C9: a tree holding only a method named main (with a
receiver) is untouched even with every flag enabled. -/
theorem instrumentMainFunction_noop_without_main_witness :
    instrumentMainFunction
      ⟨[.funcDecl ⟨"main", true, [Stmt.exprStmt (newIdent "work")]⟩], [goQuote "os"]⟩
      "cpu.prof" "mem.prof" "f_aa" "err_aa" "f_bb" "err_bb" true true true
    = ⟨[.funcDecl ⟨"main", true, [Stmt.exprStmt (newIdent "work")]⟩], [goQuote "os"]⟩ :=
  instrumentMainFunction_noop_without_main _ _ _ _ _ _ _ _ _ _ rfl

theorem mem_collectMainFiles (p : String) (files : List (String × Option File)) :
    p ∈ collectMainFiles files ↔
      ∃ node, (p, some node) ∈ files ∧ hasMainFunction node = true := by
  induction files with
  | nil => simp [collectMainFiles]
  | cons hd rest ih =>
    obtain ⟨q, pr⟩ := hd
    cases pr with
    | none =>
      rw [show collectMainFiles ((q, none) :: rest) = collectMainFiles rest from rfl, ih]
      constructor
      · rintro ⟨node, hmem, hmain⟩
        exact ⟨node, List.mem_cons_of_mem _ hmem, hmain⟩
      · rintro ⟨node, hmem, hmain⟩
        rcases List.mem_cons.mp hmem with heq | hmem2
        · simp at heq
        · exact ⟨node, hmem2, hmain⟩
    | some nd =>
      by_cases hm : hasMainFunction nd = true
      · rw [show collectMainFiles ((q, some nd) :: rest) = q :: collectMainFiles rest
            from by simp [collectMainFiles, hm]]
        simp only [List.mem_cons, ih]
        constructor
        · rintro (rfl | ⟨node, hmem, hmain⟩)
          · exact ⟨nd, Or.inl rfl, hm⟩
          · exact ⟨node, Or.inr hmem, hmain⟩
        · rintro ⟨node, (heq | hmem), hmain⟩
          · rw [Prod.mk.injEq] at heq
            exact Or.inl heq.1
          · exact Or.inr ⟨node, hmem, hmain⟩
      · rw [show collectMainFiles ((q, some nd) :: rest) = collectMainFiles rest
            from by simp [collectMainFiles, hm]]
        rw [ih]
        constructor
        · rintro ⟨node, hmem, hmain⟩
          exact ⟨node, List.mem_cons_of_mem _ hmem, hmain⟩
        · rintro ⟨node, hmem, hmain⟩
          rcases List.mem_cons.mp hmem with heq | hmem2
          · rw [Prod.mk.injEq] at heq
            obtain ⟨-, h2⟩ := heq
            injection h2 with h2
            rw [← h2] at hm
            exact absurd hmain hm
          · exact ⟨node, hmem2, hmain⟩

/-- C5: findMainFile ignores files that fail to parse, collects exactly
the parseable files containing an entry point, and returns the absence
error on zero matches, the ambiguity error naming all matches on more
than one, and the unique matching path on exactly one. -/
theorem findMainFile_spec (files : List (String × Option File)) :
    (∀ p, findMainFile ((p, (none : Option File)) :: files) = findMainFile files) ∧
    (∀ p, p ∈ collectMainFiles files ↔
      ∃ node, (p, some node) ∈ files ∧ hasMainFunction node = true) ∧
    (collectMainFiles files = [] → findMainFile files = .error .noMain) ∧
    (∀ ms, collectMainFiles files = ms → 1 < ms.length →
      findMainFile files = .error (.multiple ms)) ∧
    (∀ p, collectMainFiles files = [p] → findMainFile files = .ok p) := by
  refine ⟨fun p => rfl, fun p => mem_collectMainFiles p files, ?_, ?_, ?_⟩
  · intro h
    unfold findMainFile
    rw [h]
    rfl
  · intro ms hms hlen
    unfold findMainFile
    rw [hms, if_neg (by omega), if_pos hlen]
  · intro p hp
    unfold findMainFile
    rw [hp]
    rfl

/-- Witness for C5: an unparseable file is skipped; with exactly one
matching file the path is returned; two matching files produce the
ambiguity error naming both; no matching file produces the absence
error. -/
theorem findMainFile_spec_witness :
    findMainFile [("bad.go", none),
        ("a.go", some ⟨[.funcDecl ⟨"main", false, []⟩], []⟩),
        ("b.go", some ⟨[.funcDecl ⟨"helper", false, []⟩], []⟩)]
      = .ok "a.go" ∧
    findMainFile [("a.go", some ⟨[.funcDecl ⟨"main", false, []⟩], []⟩),
        ("b.go", some ⟨[.funcDecl ⟨"main", false, []⟩], []⟩)]
      = .error (.multiple ["a.go", "b.go"]) ∧
    findMainFile [("c.go", some ⟨[.funcDecl ⟨"helper", false, []⟩], []⟩)]
      = .error .noMain := by
  refine ⟨?_, ?_, ?_⟩
  · exact (findMainFile_spec _).2.2.2.2 "a.go" rfl
  · exact (findMainFile_spec _).2.2.2.1 ["a.go", "b.go"] rfl (by decide)
  · exact (findMainFile_spec _).2.2.1 rfl

/-- C2: the metrics endpoint answers status 200 on every request; an
absent or unparseable file yields body "\x7b\x7d"; a parsed snapshot whose
numeric timestampMs is more than 2000 ms older than the current time
yields body "\x7b\x7d"; otherwise the raw snapshot bytes are forwarded
unchanged. -/
theorem metricsHandler_spec (now : Int) (file : Option MetricsFile)
    (f : MetricsFile) (m : List (String × JVal)) :
    (metricsHandler now file).status = 200 ∧
    metricsHandler now none = ⟨200, "{}"⟩ ∧
    (f.parsed = none → metricsHandler now (some f) = ⟨200, "{}"⟩) ∧
    (∀ q : Rat, f.parsed = some m → lookupField m "timestampMs" = some (JVal.num q) →
      now - truncToInt q > 2000 → metricsHandler now (some f) = ⟨200, "{}"⟩) ∧
    (f.parsed = some m →
      (∀ q : Rat, lookupField m "timestampMs" = some (JVal.num q) →
        now - truncToInt q ≤ 2000) →
      metricsHandler now (some f) = ⟨200, f.raw⟩) := by
  refine ⟨?_, rfl, ?_, ?_, ?_⟩
  · unfold metricsHandler
    repeat' split
    all_goals rfl
  · intro hp
    unfold metricsHandler
    dsimp only
    rw [hp]
  · intro q hp hl hstale
    unfold metricsHandler
    dsimp only
    rw [hp]
    dsimp only
    rw [hl]
    dsimp only
    rw [if_pos hstale]
  · intro hp hfresh
    unfold metricsHandler
    dsimp only
    rw [hp]
    dsimp only
    cases hl : lookupField m "timestampMs" with
    | none => rfl
    | some v =>
      cases v with
      | num q =>
        dsimp only
        rw [if_neg (by have := hfresh q hl; omega)]
      | null => rfl
      | jbool b => rfl
      | jstr s => rfl
      | arr xs => rfl
      | obj fields => rfl

/-- Witness for C2: at time 5000, an absent file and a snapshot stamped
1000 (3000 ms old, hence 4000 truncated milliseconds gap exceeding
2000) both produce "\x7b\x7d", while a snapshot stamped 4000 is forwarded
raw. -/
theorem metricsHandler_spec_witness :
    metricsHandler 5000 none = ⟨200, "{}"⟩ ∧
    metricsHandler 5000 (some ⟨"snap", some [("timestampMs", JVal.num 1000)]⟩)
      = ⟨200, "{}"⟩ ∧
    metricsHandler 5000 (some ⟨"snap", some [("timestampMs", JVal.num 4000)]⟩)
      = ⟨200, "snap"⟩ := by
  refine ⟨(metricsHandler_spec 5000 none ⟨"", none⟩ []).2.1, ?_, ?_⟩
  · exact (metricsHandler_spec 5000 none
      ⟨"snap", some [("timestampMs", JVal.num 1000)]⟩
      [("timestampMs", JVal.num 1000)]).2.2.2.1 1000 rfl rfl (by decide)
  · exact (metricsHandler_spec 5000 none
      ⟨"snap", some [("timestampMs", JVal.num 4000)]⟩
      [("timestampMs", JVal.num 4000)]).2.2.2.2 rfl
      (by intro q hq
          rw [show lookupField [("timestampMs", JVal.num 4000)] "timestampMs"
            = some (JVal.num 4000) from rfl] at hq
          injection hq with hq
          injection hq with hq
          rw [← hq]
          decide)

/-- C10: the staleness filter applies only to a numeric timestampMs: a
snapshot that parses as a JSON object but has no timestampMs key, or a
non-numeric one, is forwarded raw whatever its age. -/
theorem metricsHandler_forwards_without_numeric_timestamp (now : Int)
    (f : MetricsFile) (m : List (String × JVal))
    (hp : f.parsed = some m)
    (hnum : ∀ q : Rat, lookupField m "timestampMs" ≠ some (JVal.num q)) :
    metricsHandler now (some f) = ⟨200, f.raw⟩ := by
  unfold metricsHandler
  dsimp only
  rw [hp]
  dsimp only
  cases hl : lookupField m "timestampMs" with
  | none => rfl
  | some v =>
    cases v with
    | num q => exact absurd hl (hnum q)
    | null => rfl
    | jbool b => rfl
    | jstr s => rfl
    | arr xs => rfl
    | obj fields => rfl

/-- Witness for C10: an arbitrarily old snapshot without a timestampMs
key, and one whose timestampMs is a string, are both forwarded raw. -/
theorem metricsHandler_forwards_without_numeric_timestamp_witness :
    metricsHandler 1000000000 (some ⟨"data", some [("alloc", JVal.num 5)]⟩)
      = ⟨200, "data"⟩ ∧
    metricsHandler 1000000000
        (some ⟨"data2", some [("timestampMs", JVal.jstr "old")]⟩)
      = ⟨200, "data2"⟩ := by
  constructor
  · exact metricsHandler_forwards_without_numeric_timestamp 1000000000
      ⟨"data", some [("alloc", JVal.num 5)]⟩ [("alloc", JVal.num 5)] rfl
      (by intro q hq; simp [lookupField] at hq)
  · exact metricsHandler_forwards_without_numeric_timestamp 1000000000
      ⟨"data2", some [("timestampMs", JVal.jstr "old")]⟩
      [("timestampMs", JVal.jstr "old")] rfl
      (by intro q hq; simp [lookupField] at hq)

/-- C1 counterexample: with the subprocess exiting non-zero (runOk =
false), and likewise with serialization failing (fprintOk = false),
writeAndExecute creates the temporary file but its trace holds no
removal, refuting removal on all exit paths. -/
theorem writeAndExecute_no_cleanup_on_failure :
    (writeAndExecute ⟨"/tmp", true, true, false⟩ false false).1
      = [FsOp.create "/tmp/main_prof.go"] ∧
    (writeAndExecute ⟨"/tmp", true, true, false⟩ false false).2
      = .error "execution failed" ∧
    FsOp.remove "/tmp/main_prof.go"
      ∉ (writeAndExecute ⟨"/tmp", true, true, false⟩ false false).1 ∧
    (writeAndExecute ⟨"/tmp", true, false, true⟩ false false).1
      = [FsOp.create "/tmp/main_prof.go"] ∧
    FsOp.remove "/tmp/main_prof.go"
      ∉ (writeAndExecute ⟨"/tmp", true, false, true⟩ false false).1 := by
  refine ⟨rfl, rfl, ?_, rfl, ?_⟩ <;> decide

/-- C1 amended: writeAndExecute removes the temporary file exactly when
the whole run succeeds — node non-nil, temp file created, serialization
succeeded and the subprocess exited zero — in which case the removal
follows the subprocess run as the final effect; on the failure paths
the created file is left in place. -/
theorem writeAndExecute_remove_iff_success (env : ExecEnv) (nodeIsNil web : Bool) :
    (FsOp.remove (pathJoin env.tmpDir "main_prof.go")
        ∈ (writeAndExecute env nodeIsNil web).1 ↔
      nodeIsNil = false ∧ env.createTempOk = true ∧ env.fprintOk = true ∧
        env.runOk = true) ∧
    (nodeIsNil = false → env.createTempOk = true → env.fprintOk = true →
      env.runOk = true →
      (writeAndExecute env nodeIsNil web).1
        = [FsOp.create (pathJoin env.tmpDir "main_prof.go"),
           FsOp.remove (pathJoin env.tmpDir "main_prof.go")]) := by
  obtain ⟨t, c, fp, r⟩ := env
  cases nodeIsNil <;> cases c <;> cases fp <;> cases r <;>
    simp [writeAndExecute, pathJoin]

/-- Witness for the amended C1 theorem: on the all-success environment the
trace is the creation followed by the removal. -/
theorem writeAndExecute_remove_iff_success_witness :
    (writeAndExecute ⟨"/tmp", true, true, true⟩ false false).1
      = [FsOp.create (pathJoin "/tmp" "main_prof.go"),
         FsOp.remove (pathJoin "/tmp" "main_prof.go")] :=
  (writeAndExecute_remove_iff_success ⟨"/tmp", true, true, true⟩ false false).2
    rfl rfl rfl rfl

/-- C6: once os.MkdirTemp has succeeded, the deferred os.RemoveAll of
the overlay directory is the final effect of every exit path of
writeAndExecutePackage — success, file copy failure, dependency
reconciliation failure or subprocess failure alike. -/
theorem writeAndExecutePackage_removes_tempdir (env : PkgEnv)
    (originalMainFile : String) (allPkgFiles : List String)
    (h : env.mkdirOk = true) :
    (writeAndExecutePackage env originalMainFile allPkgFiles).1.getLast?
      = some (FsOp.removeAll env.tempDir) ∧
    FsOp.removeAll env.tempDir
      ∈ (writeAndExecutePackage env originalMainFile allPkgFiles).1 := by
  unfold writeAndExecutePackage
  rw [h]
  rw [show ((if (!true) = true then
        (([] : List FsOp), Except.error "failed to create temp directory")
      else
        let r := writeAndExecutePackageBody env originalMainFile allPkgFiles
        (FsOp.mkdir env.tempDir :: r.1 ++ [FsOp.removeAll env.tempDir], r.2))
    = (FsOp.mkdir env.tempDir ::
        (writeAndExecutePackageBody env originalMainFile allPkgFiles).1
        ++ [FsOp.removeAll env.tempDir],
       (writeAndExecutePackageBody env originalMainFile allPkgFiles).2))
    from rfl]
  constructor
  · rw [show FsOp.mkdir env.tempDir ::
        (writeAndExecutePackageBody env originalMainFile allPkgFiles).1
          ++ [FsOp.removeAll env.tempDir]
      = (FsOp.mkdir env.tempDir ::
          (writeAndExecutePackageBody env originalMainFile allPkgFiles).1)
          ++ [FsOp.removeAll env.tempDir] from rfl]
    exact List.getLast?_concat _
  · simp

/-- Witness for C6 on a concrete error path: copying succeeds but the
subprocess fails; the trace still ends with the recursive removal of
the overlay directory. -/
theorem writeAndExecutePackage_removes_tempdir_witness :
    (writeAndExecutePackage
        ⟨"/t", true, true, true, fun _ => true, fun _ => true,
          true, false, true, true, false⟩
        "pkg/main.go" ["pkg/main.go", "pkg/util.go"]).1.getLast?
      = some (FsOp.removeAll "/t") ∧
    (writeAndExecutePackage
        ⟨"/t", true, true, true, fun _ => true, fun _ => true,
          true, false, true, true, false⟩
        "pkg/main.go" ["pkg/main.go", "pkg/util.go"]).2
      = .error "execution failed" :=
  ⟨(writeAndExecutePackage_removes_tempdir _ "pkg/main.go"
      ["pkg/main.go", "pkg/util.go"] rfl).1, by rfl⟩

end Peep
